import Mathlib

/-!
Verification of the mcp-browser-tabs server (`src/index.ts`) against its
natural-language specification.  The development shallowly embeds:

* the JavaScript string/number primitives the source relies on
  (`Number.parseInt`, template-literal interpolation),
* the stdout-parsing and window-grouping stages of `getChromeTabsWithIds`
  (src/index.ts lines 56-98),
* the AppleScript programs the server sends to `osascript` — enumerate,
  close-by-id, activate-by-id, close-by-index — as state transformers over an
  abstract browser state (windows containing tabs),
* the `tools/call` request handler (src/index.ts lines 274-384).

Machine integers are modelled as `Int`; a JavaScript `NaN` produced by a
failed `Number.parseInt` is modelled as `Option.none`.
-/

namespace BrowserTabs

/-! ## JavaScript primitives -/

/-- Decimal digit character for a value 0-9 (any other input is unreachable
at use sites and mapped to a placeholder). -/
def digitChar : Nat → Char
  | 0 => '0'
  | 1 => '1'
  | 2 => '2'
  | 3 => '3'
  | 4 => '4'
  | 5 => '5'
  | 6 => '6'
  | 7 => '7'
  | 8 => '8'
  | 9 => '9'
  | _ => '*'

/-- Fuel-driven decimal rendering of a natural number (most significant digit
first).  The fuel is structural so that the kernel can evaluate it. -/
def natToDigitsCore : Nat → Nat → List Char
  | 0, _ => []
  | fuel + 1, n =>
    if n < 10 then [digitChar n]
    else natToDigitsCore fuel (n / 10) ++ [digitChar (n % 10)]

/-- Decimal rendering of a natural number, as JavaScript renders a
non-negative integral number into a template literal. -/
def natToString (n : Nat) : String := String.mk (natToDigitsCore (n + 1) n)

/-- Decimal rendering of an integer, as JavaScript renders an integral
number into a template literal. -/
def intToString : Int → String
  | Int.ofNat n => natToString n
  | Int.negSucc m => "-" ++ natToString (m + 1)

/-- Numeric value of a list of decimal digit characters. -/
def digitsVal (cs : List Char) : Nat :=
  cs.foldl (fun a c => 10 * a + (c.toNat - 48)) 0

/-- Longest decimal-digit prefix of a character list, as a number; `none`
models `NaN` when there is no digit. -/
def jsParseDigits (cs : List Char) : Option Nat :=
  let ds := cs.takeWhile (fun c => c.isDigit)
  if ds = [] then none else some (digitsVal ds)

/-- Model of JavaScript `Number.parseInt(s, 10)`: skip leading whitespace,
read an optional sign, take the longest prefix of decimal digits; `none`
models the `NaN` result when no digit is found. -/
def jsParseInt (s : String) : Option Int :=
  match s.toList.dropWhile (fun c => c.isWhitespace) with
  | [] => none
  | c :: rest =>
    if c = '-' then (jsParseDigits rest).map (fun n => -(n : Int))
    else if c = '+' then (jsParseDigits rest).map (fun n => (n : Int))
    else (jsParseDigits (c :: rest)).map (fun n => (n : Int))

/-- Scanner for JavaScript `String.prototype.split` with a non-empty
separator: at each position, if the separator is a prefix, emit the piece
accumulated so far (held reversed) and skip the separator, otherwise shift
one character.  The fuel is structural and one unit larger than the input
length, which the scanner can never exhaust. -/
def strSplitAux (sep : List Char) : Nat → List Char → List Char → List (List Char)
  | 0, _, acc => [acc.reverse]
  | _ + 1, [], acc => [acc.reverse]
  | fuel + 1, c :: rest, acc =>
    if sep.isPrefixOf (c :: rest) then
      acc.reverse :: strSplitAux sep fuel ((c :: rest).drop sep.length) []
    else strSplitAux sep fuel rest (c :: acc)

/-- Model of JavaScript `s.split(sep)` for a non-empty separator. -/
def strSplit (s : String) (sep : String) : List String :=
  (strSplitAux sep.toList (s.toList.length + 1) s.toList []).map String.mk

/-- Model of JavaScript `s.trim()`: strip whitespace from both ends. -/
def jsTrim (s : String) : String :=
  String.mk (((s.toList.dropWhile Char.isWhitespace).reverse.dropWhile
    Char.isWhitespace).reverse)

/-- Untyped JavaScript values that can reach the tool handler as arguments
(the handler casts `request.params.arguments` without runtime validation). -/
inductive JsValue
  | num (n : Int)
  | str (s : String)
  | bool (b : Bool)
  | undef
  | null
  deriving DecidableEq

/-- Template-literal interpolation of a JavaScript value. -/
def jsToString : JsValue → String
  | .num n => intToString n
  | .str s => s
  | .bool b => if b then "true" else "false"
  | .undef => "undefined"
  | .null => "null"

/-! ## Snapshot parser (src/index.ts lines 56-72) -/

/-- One parsed per-tab record, the result of destructuring
`line.split("|||")` in `getChromeTabsWithIds`.  `none` in a numeric field
models the `NaN` produced when `Number.parseInt` fails. -/
structure TabData where
  windowId : Option Int
  windowIndex : Option Int
  tabId : Option Int
  tabIndex : Option Int
  isActive : Bool
  title : String
  url : String
  deriving DecidableEq

/-- Destructuring of the field list of one line: a missing field is JavaScript
`undefined`, which `Number.parseInt` turns into `NaN` (as does the empty
string) and which `title || ""` / `url || ""` turn into the empty string. -/
def parseFields (fs : List String) : TabData :=
  { windowId := jsParseInt (fs.getD 0 "")
    windowIndex := jsParseInt (fs.getD 1 "")
    tabId := jsParseInt (fs.getD 2 "")
    tabIndex := jsParseInt (fs.getD 3 "")
    isActive := fs.getD 4 "" = "true"
    title := fs.getD 5 ""
    url := fs.getD 6 "" }

/-- Parse one line of bridge output: `line.split("|||")` followed by the
destructuring above. -/
def parseLine (line : String) : TabData := parseFields (strSplit line "|||")

/-- The parsing stage of `getChromeTabsWithIds`: trim the bridge stdout,
split into lines, drop empty lines, parse each remaining line. -/
def parseTabs (stdout : String) : List TabData :=
  ((strSplit (jsTrim stdout) "\n").filter (fun l => l.length > 0)).map parseLine

/-! ## Window grouping (src/index.ts lines 17-31 and 74-98) -/

/-- The `ChromeTab` interface of the source (numeric fields `Option Int`,
with `none` modelling `NaN`). -/
structure ChromeTab where
  id : Option Int
  windowId : Option Int
  title : String
  url : String
  isActive : Bool
  windowIndex : Option Int
  tabIndex : Option Int
  deriving DecidableEq

/-- The `ChromeWindow` interface of the source. -/
structure ChromeWindow where
  windowId : Option Int
  windowIndex : Option Int
  tabs : List ChromeTab
  deriving DecidableEq

/-- Conversion from a parsed record to the pushed `ChromeTab` value
(src/index.ts lines 87-95). -/
def mkChromeTab (t : TabData) : ChromeTab :=
  { id := t.tabId
    windowId := t.windowId
    title := t.title
    url := t.url
    isActive := t.isActive
    windowIndex := t.windowIndex
    tabIndex := t.tabIndex }

/-- The fresh window created when a record's `windowId` is not yet a key of
the window map (src/index.ts lines 78-84). -/
def newWindowOf (t : TabData) : ChromeWindow :=
  { windowId := t.windowId, windowIndex := t.windowIndex, tabs := [mkChromeTab t] }

/-- One step of the grouping loop: the insertion-ordered `Map` keyed by
`windowId` is modelled as a list of windows with distinct `windowId`s; a
record is pushed onto the first window with its `windowId`, or appended as a
fresh window at the end (JavaScript `Map` keys compare with SameValueZero,
under which `NaN` equals `NaN`, matching equality of `Option Int`). -/
def insertTab : List ChromeWindow → TabData → List ChromeWindow
  | [], t => [newWindowOf t]
  | w :: ws, t =>
    if w.windowId = t.windowId then { w with tabs := w.tabs ++ [mkChromeTab t] } :: ws
    else w :: insertTab ws t

/-- The grouping stage of `getChromeTabsWithIds` (src/index.ts lines 74-98):
fold the parsed records into the window map and read the windows off in
insertion order. -/
def groupTabs (ts : List TabData) : List ChromeWindow := ts.foldl insertTab []

/-- `getChromeTabsWithIds` applied to a given bridge stdout: parse then
group. -/
def getChromeTabsWithIds (stdout : String) : List ChromeWindow :=
  groupTabs (parseTabs stdout)

/-! ## Abstract browser state and the AppleScript programs

The AppleScript programs embedded in the source are the bridge side of the
system; they are embedded as state transformers over an abstract browser
state.  `osascript` process-level framing is abstracted: a script `error`
surfaces as `Except.error` carrying the script's error text, a normal return
surfaces as `Except.ok` carrying the new state (and stdout where the script
returns text). -/

/-- A tab as the browser owns it. -/
structure BTab where
  tabId : Int
  title : String
  url : String
  deriving DecidableEq

/-- A window as the browser owns it: `activeTabIndex` is the 1-based index
AppleScript reports as `active tab index`. -/
structure BWindow where
  winId : Int
  activeTabIndex : Nat
  tabs : List BTab
  deriving DecidableEq

/-- The whole browser: windows in front-to-back order (AppleScript
`window 1` is the first element). -/
structure BrowserState where
  windows : List BWindow
  deriving DecidableEq

/-- The per-tab record the enumerate script (src/index.ts lines 35-53)
emits for the tab at 1-based index `tIdx` of the window with id `wid` at
1-based window index `wIdx` whose active tab index is `act`, as the parser
decodes it: the script renders `isActive` as `true`/`false` and the parser
compares that text with `"true"`. -/
def mkRecord (wid : Int) (wIdx : Nat) (act : Nat) (tIdx : Nat) (t : BTab) : TabData :=
  { windowId := some wid
    windowIndex := some (wIdx : Int)
    tabId := some t.tabId
    tabIndex := some (tIdx : Int)
    isActive := tIdx = act
    title := t.title
    url := t.url }

/-- Records for the inner `repeat with tabIndexInWindow from 1 to count`
loop of the enumerate script, starting at counter value `i`. -/
def emitTabsFrom (wid : Int) (wIdx : Nat) (act : Nat) : Nat → List BTab → List TabData
  | _, [] => []
  | i, t :: ts => mkRecord wid wIdx act i t :: emitTabsFrom wid wIdx act (i + 1) ts

/-- Records for the outer `repeat with windowIndex from 1 to count` loop of
the enumerate script, starting at counter value `k`. -/
def emitFrom : Nat → List BWindow → List TabData
  | _, [] => []
  | k, w :: ws => emitTabsFrom w.winId k w.activeTabIndex 1 w.tabs ++ emitFrom (k + 1) ws

/-- All per-tab records the enumerate script emits for a browser state. -/
def emitRecords (st : BrowserState) : List TabData := emitFrom 1 st.windows

/-- The text of one output line of the enumerate script (line 48 of the
source): seven fields joined by `|||`. -/
def emitLine (wid : Int) (wIdx : Nat) (act : Nat) (tIdx : Nat) (t : BTab) : String :=
  intToString wid ++ "|||" ++ natToString wIdx ++ "|||" ++ intToString t.tabId ++ "|||"
    ++ natToString tIdx ++ "|||" ++ (if tIdx = act then "true" else "false") ++ "|||"
    ++ t.title ++ "|||" ++ t.url

/-- Output lines of the inner loop of the enumerate script. -/
def emitLinesTabsFrom (wid : Int) (wIdx : Nat) (act : Nat) : Nat → List BTab → List String
  | _, [] => []
  | i, t :: ts => emitLine wid wIdx act i t :: emitLinesTabsFrom wid wIdx act (i + 1) ts

/-- Output lines of the outer loop of the enumerate script. -/
def emitLinesFrom : Nat → List BWindow → List String
  | _, [] => []
  | k, w :: ws =>
    emitLinesTabsFrom w.winId k w.activeTabIndex 1 w.tabs ++ emitLinesFrom (k + 1) ws

/-- The stdout of the enumerate script: each line followed by a newline. -/
def enumerateScript (st : BrowserState) : String :=
  String.join ((emitLinesFrom 1 st.windows).map (fun l => l ++ "\n"))

/-- The window the grouping stage builds from the records the enumerate
script emits for browser window `w` enumerated at window index `k` (used to
state snapshot invariants of the grouping stage). -/
def expectedWindow (k : Nat) (w : BWindow) : ChromeWindow :=
  { windowId := some w.winId
    windowIndex := some (k : Int)
    tabs := (emitTabsFrom w.winId k w.activeTabIndex 1 w.tabs).map mkChromeTab }

/-- The snapshot the grouping stage builds from the enumerate script's
records, window by window from window index `k`. -/
def expectedFrom : Nat → List BWindow → List ChromeWindow
  | _, [] => []
  | k, w :: ws => expectedWindow k w :: expectedFrom (k + 1) ws

/-- The tab search of the close-by-id script (src/index.ts lines 113-122):
the script compares `(id of t) as string` with the interpolated target text,
closes the first matching tab and exits both loops.  Returns the window's
remaining tabs when a match was closed. -/
def removeFirst (target : String) : List BTab → Option (List BTab)
  | [] => none
  | t :: ts =>
    if intToString t.tabId = target then some ts
    else (removeFirst target ts).map (fun ts2 => t :: ts2)

/-- The close-by-id script (src/index.ts lines 108-128): search every window
front to back; on a match close that tab, otherwise raise the script error
`Tab with ID <target> not found`. -/
def closeByIdScript (target : String) : List BWindow → Except String (List BWindow)
  | [] => Except.error ("Tab with ID " ++ target ++ " not found")
  | w :: ws =>
    match removeFirst target w.tabs with
    | some ts => Except.ok ({ w with tabs := ts } :: ws)
    | none => (closeByIdScript target ws).map (fun ws2 => w :: ws2)

/-- The tab search of the activate-by-id script (src/index.ts lines
147-155): 1-based counter over the window's tabs, first match wins. -/
def findTabIdx (target : String) : Nat → List BTab → Option Nat
  | _, [] => none
  | i, t :: ts => if intToString t.tabId = target then some i else findTabIdx target (i + 1) ts

/-- Window search of the activate-by-id script: on a match, set the window's
active tab index to the matched counter value; `set index of w to 1`
afterwards moves that window to the front, so the search also returns the
remaining windows in their original order. -/
def activateSearch (target : String) : List BWindow → Option (BWindow × List BWindow)
  | [] => none
  | w :: ws =>
    match findTabIdx target 1 w.tabs with
    | some i => some ({ w with activeTabIndex := i }, ws)
    | none => (activateSearch target ws).map (fun p => (p.1, w :: p.2))

/-- The activate-by-id script (src/index.ts lines 141-163): set the active
tab index and bring the window to the front in the same script, or raise
`Tab with ID <target> not found`. -/
def activateByIdScript (target : String) (ws : List BWindow) : Except String (List BWindow) :=
  match activateSearch target ws with
  | some p => Except.ok (p.1 :: p.2)
  | none => Except.error ("Tab with ID " ++ target ++ " not found")

/-- The close-by-index script body (src/index.ts lines 179-189): the inner
`try` block addresses `tab tIdx of window wIdx`; any addressing error is
caught by the script's own `on error` handler, which returns the error text
on stdout — the script never makes `osascript` exit non-zero for bad
coordinates.  Result: new window list plus stdout text. -/
def closeByIndexCore (wIdx tIdx : Int) (ws : List BWindow) : List BWindow × String :=
  if wIdx < 1 then (ws, "Error: cannot get window " ++ intToString wIdx)
  else
    match ws.get? (wIdx.toNat - 1) with
    | none => (ws, "Error: cannot get window " ++ intToString wIdx)
    | some w =>
      if tIdx < 1 then (ws, "Error: cannot get tab " ++ intToString tIdx)
      else
        match w.tabs.get? (tIdx.toNat - 1) with
        | none => (ws, "Error: cannot get tab " ++ intToString tIdx)
        | some _ =>
          (ws.set (wIdx.toNat - 1) { w with tabs := w.tabs.eraseIdx (tIdx.toNat - 1) }, "")

/-! ## The TypeScript operations

Each operation runs exactly one `osascript` invocation; the third component
of the result counts the bridge invocations the operation issued.  Argument
values are `JsValue`s because the caller casts `request.params.arguments`
without runtime validation, so any value can flow into the template-literal
interpolation `${tabId}`. -/

/-- `closeChromeTabById` (src/index.ts lines 107-137). -/
def closeChromeTabById (v : JsValue) (st : BrowserState) :
    Except String Unit × BrowserState × Nat :=
  match closeByIdScript (jsToString v) st.windows with
  | Except.ok ws => (Except.ok (), ⟨ws⟩, 1)
  | Except.error e =>
    (Except.error ("Failed to close Chrome tab with ID " ++ jsToString v ++ ": " ++ e), st, 1)

/-- `activateChromeTabById` (src/index.ts lines 140-172). -/
def activateChromeTabById (v : JsValue) (st : BrowserState) :
    Except String Unit × BrowserState × Nat :=
  match activateByIdScript (jsToString v) st.windows with
  | Except.ok ws => (Except.ok (), ⟨ws⟩, 1)
  | Except.error e =>
    (Except.error ("Failed to activate Chrome tab with ID " ++ jsToString v ++ ": " ++ e), st, 1)

/-- `closeChromeTabByIndex` (src/index.ts lines 175-198).  With numeric
arguments the script always exits zero (its `on error` handler swallows
addressing failures into stdout, which this function discards), so the
function resolves successfully; a non-numeric interpolation makes the script
itself ill-formed and `osascript` fail, which the function rethrows. -/
def closeChromeTabByIndex (wv tv : JsValue) (st : BrowserState) :
    Except String Unit × BrowserState × Nat :=
  match wv, tv with
  | JsValue.num wi, JsValue.num ti =>
    let r := closeByIndexCore wi ti st.windows
    (Except.ok (), ⟨r.1⟩, 1)
  | _, _ => (Except.error "Failed to close Chrome tab: osascript script error", st, 1)

/-- The snapshot `getChromeTabsWithIds` builds for a browser state: run the
enumerate script, parse, group. -/
def getTabsWindows (st : BrowserState) : List ChromeWindow :=
  groupTabs (parseTabs (enumerateScript st))

/-- The tabs of a window that a fresh snapshot would flag `isActive`,
mirroring `isActive := (tabIndexInWindow = activeTabIndex)` on line 47 of
the source: 1-based counter, keep the tab iff its counter value equals the
window's active tab index. -/
def activeTabsFrom (act : Nat) : Nat → List BTab → List BTab
  | _, [] => []
  | i, t :: ts => (if i = act then [t] else []) ++ activeTabsFrom act (i + 1) ts

/-- All tabs of `w` a fresh snapshot would report as active. -/
def activeTabs (w : BWindow) : List BTab := activeTabsFrom w.activeTabIndex 1 w.tabs

/-! ## Directory and Resolver (spec components)

The Window/Tab Directory and Address Resolver exist in the specification
(§4.3, §4.4) as named components; in src/ they have no standalone code (the
id-to-position translation lives inside the AppleScript programs), so they
are modelled from the spec's words over the snapshot type the grouping stage
produces. -/

/-- Modelled from the spec: `lookupById` of the Window/Tab Directory (§4.3),
which is absent from src/ as a standalone function.  Scan the snapshot's
windows in order and return the first tab whose stable id matches, together
with its owning window. -/
def lookupById : List ChromeWindow → Option Int → Option (ChromeWindow × ChromeTab)
  | [], _ => none
  | w :: ws, tid =>
    match w.tabs.find? (fun t => t.id = tid) with
    | some t => some (w, t)
    | none => lookupById ws tid

/-- Modelled from the spec: the Directory lookup by positional address
(§4.3), absent from src/ as a standalone function: find the window carrying
the given window positional index, then the tab carrying the given tab
positional index. -/
def lookupByPosition (S : List ChromeWindow) (wIdx tIdx : Option Int) : Option ChromeTab :=
  match S.find? (fun w => w.windowIndex = wIdx) with
  | some w => w.tabs.find? (fun t => t.tabIndex = tIdx)
  | none => none

/-- Modelled from the spec: `Resolver.resolve` for an identity target
(§4.4), absent from src/ as a standalone function: look the id up in the
snapshot and hand back the fresh positional coordinates. -/
def resolve (S : List ChromeWindow) (tid : Option Int) : Option (Option Int × Option Int) :=
  (lookupById S tid).map (fun p => (p.1.windowIndex, p.2.tabIndex))

/-! ## The tools/call handler (src/index.ts lines 274-384) -/

/-- One item of a response's `content` array. -/
inductive Content
  | text (s : String)
  deriving DecidableEq

/-- The response envelope the handler returns: success content, or
`isError := true` with a human-readable message. -/
structure Envelope where
  content : List Content
  isError : Bool
  deriving DecidableEq

/-- The `catch` branch of the handler (src/index.ts lines 372-382). -/
def errorEnvelope (msg : String) : Envelope :=
  { content := [Content.text ("❌ Error: " ++ msg)], isError := true }

/-- A success response (the source omits `isError` on success). -/
def successEnvelope (msg : String) : Envelope :=
  { content := [Content.text msg], isError := false }

/-- JavaScript property access on the cast arguments object: the value under
the key, or `undefined` when the key is absent. -/
def getArg (args : List (String × JsValue)) (k : String) : JsValue :=
  match args.find? (fun p => p.1 = k) with
  | some p => p.2
  | none => JsValue.undef

/-- Rendering of a numeric field into the listing text; `none` (a `NaN`)
renders as `NaN` in a template literal. -/
def optNumToString : Option Int → String
  | some n => intToString n
  | none => "NaN"

/-- Per-tab listing block (src/index.ts lines 296-301). -/
def formatTab (wIdx : Option Int) (t : ChromeTab) : String :=
  let marker := if t.isActive then " ★" else ""
  "  " ++ optNumToString wIdx ++ "-" ++ optNumToString t.tabIndex ++ ". " ++ t.title ++ marker
    ++ "\n     " ++ t.url ++ "\n     [Tab ID: " ++ optNumToString t.id ++ "]" ++ marker

/-- Per-window listing block (src/index.ts lines 290-303). -/
def formatWindow (w : ChromeWindow) : String :=
  let indicator :=
    match w.tabs.find? (fun t => t.isActive) with
    | some t => " (Active: Tab ID " ++ optNumToString t.id ++ ")"
    | none => ""
  "Window " ++ optNumToString w.windowIndex ++ indicator ++ ":\n"
    ++ String.intercalate "\n" (w.tabs.map (formatTab w.windowIndex))

/-- The fixed instruction block appended to every listing
(src/index.ts lines 316-323). -/
def instructionsText : String :=
  "🔥 CRITICAL INSTRUCTIONS FOR AI:\n"
    ++ "1. ALWAYS use Tab ID (numbers in [Tab ID: xxxxx]) for tab operations\n"
    ++ "2. NEVER use display numbers (1-1, 1-2) - these are just for human reference\n"
    ++ "3. Use close_tab_by_id or activate_tab_by_id with the Tab ID number\n"
    ++ "4. Example: If you see [Tab ID: 1594670961], use tabId: 1594670961\n\n"
    ++ "⚠️ DANGER: Window-Tab index changes when tabs are reordered/closed\n"
    ++ "✅ SAFE: Tab ID never changes and is unique across all tabs"

/-- The full `get_tabs` response text (src/index.ts lines 289-324). -/
def getTabsText (ws : List ChromeWindow) : String :=
  let formatted := String.intercalate "\n\n" (ws.map formatWindow)
  let total := ws.foldl (fun sum w => sum + w.tabs.length) 0
  "Found " ++ natToString total ++ " open tabs in Chrome:\n\n" ++ formatted ++ "\n\n"
    ++ instructionsText

/-- The TypeError message raised when the handler destructures a missing
arguments object. -/
def destructureMsg (field : String) : String :=
  "Cannot destructure property " ++ field ++ " of request.params.arguments as it is undefined."

/-- The tools/call handler: dispatch on the tool name; every await sits
inside the handler's single try/catch, whose catch converts any thrown error
into an `isError` envelope.  Returns the envelope, the browser state after
the call, and how many bridge (`osascript`) invocations were issued. -/
def handleCallTool (name : String) (args : Option (List (String × JsValue)))
    (st : BrowserState) : Envelope × BrowserState × Nat :=
  if name = "get_tabs" then
    (successEnvelope (getTabsText (getTabsWindows st)), st, 1)
  else if name = "close_tab_by_id" then
    match args with
    | none => (errorEnvelope (destructureMsg "tabId"), st, 0)
    | some a =>
      let v := getArg a "tabId"
      match closeChromeTabById v st with
      | (Except.ok _, st2, c) =>
        (successEnvelope ("✅ Successfully closed tab with ID " ++ jsToString v), st2, c)
      | (Except.error e, st2, c) => (errorEnvelope e, st2, c)
  else if name = "activate_tab_by_id" then
    match args with
    | none => (errorEnvelope (destructureMsg "tabId"), st, 0)
    | some a =>
      let v := getArg a "tabId"
      match activateChromeTabById v st with
      | (Except.ok _, st2, c) =>
        (successEnvelope ("✅ Successfully activated tab with ID " ++ jsToString v), st2, c)
      | (Except.error e, st2, c) => (errorEnvelope e, st2, c)
  else if name = "close_tab" then
    match args with
    | none => (errorEnvelope (destructureMsg "windowIndex"), st, 0)
    | some a =>
      let wv := getArg a "windowIndex"
      let tv := getArg a "tabIndex"
      match closeChromeTabByIndex wv tv st with
      | (Except.ok _, st2, c) =>
        (successEnvelope ("⚠️ LEGACY: Successfully closed tab at window " ++ jsToString wv
          ++ ", tab " ++ jsToString tv
          ++ ". Consider using close_tab_by_id for better reliability."), st2, c)
      | (Except.error e, st2, c) => (errorEnvelope e, st2, c)
  else (errorEnvelope ("Unknown tool: " ++ name), st, 0)

/-! ## Concrete fixtures used by witnesses and counterexamples -/

/-- The browser state behind the spec §8 scenario: one window (id 10) whose
active tab index is 1, holding tabs 555 and 556. -/
def scenarioState : BrowserState :=
  ⟨[⟨10, 1, [⟨555, "Home", "https://example.com"⟩, ⟨556, "Docs", "https://example.com/docs"⟩]⟩]⟩

/-- The spec §8 scenario bridge output. -/
def scenarioRaw : String :=
  "10|||1|||555|||1|||true|||Home|||https://example.com\n10|||1|||556|||2|||false|||Docs|||https://example.com/docs\n"

/-- Tab 555 of the scenario snapshot, as the grouping stage produces it. -/
def scenarioTab555 : ChromeTab :=
  { id := some 555, windowId := some 10, title := "Home", url := "https://example.com",
    isActive := true, windowIndex := some 1, tabIndex := some 1 }

/-- Tab 556 of the scenario snapshot, as the grouping stage produces it. -/
def scenarioTab556 : ChromeTab :=
  { id := some 556, windowId := some 10, title := "Docs", url := "https://example.com/docs",
    isActive := false, windowIndex := some 1, tabIndex := some 2 }

/-- The single window of the scenario snapshot. -/
def scenarioWindow : ChromeWindow :=
  { windowId := some 10, windowIndex := some 1, tabs := [scenarioTab555, scenarioTab556] }

/-- The scenario snapshot. -/
def scenarioSnapshot : List ChromeWindow := [scenarioWindow]

/-- A one-window, one-tab browser state. -/
def smallState : BrowserState := ⟨[⟨7, 1, [⟨100, "Only", "https://one.example"⟩]⟩]⟩

/-- A field list with eight fields, as produced by a title containing the
`|||` delimiter sequence. -/
def eightFields : List String := ["1", "1", "5", "1", "true", "My", "Title", "http://x"]

/-! ## Decimal rendering and parsing lemmas -/

theorem digitChar_spec : ∀ d : Nat, d < 10 →
    (digitChar d).toNat = 48 + d ∧ (digitChar d).isDigit = true
      ∧ (digitChar d).isWhitespace = false
      ∧ digitChar d ≠ '-' ∧ digitChar d ≠ '+' := by decide

theorem digitsVal_append (cs : List Char) (c : Char) :
    digitsVal (cs ++ [c]) = 10 * digitsVal cs + (c.toNat - 48) := by
  unfold digitsVal
  rw [List.foldl_append]
  rfl

theorem natToDigitsCore_spec : ∀ fuel n : Nat, n < fuel →
    (∃ d l, d < 10 ∧ natToDigitsCore fuel n = digitChar d :: l)
      ∧ (∀ c ∈ natToDigitsCore fuel n, ∃ d, d < 10 ∧ c = digitChar d)
      ∧ digitsVal (natToDigitsCore fuel n) = n := by
  intro fuel
  induction fuel with
  | zero => intro n h; omega
  | succ fuel ih =>
    intro n h
    by_cases h10 : n < 10
    · refine ⟨⟨n, [], h10, by simp [natToDigitsCore, h10]⟩, ?_, ?_⟩
      · intro c hc
        simp [natToDigitsCore, h10] at hc
        exact ⟨n, h10, hc⟩
      · simp [natToDigitsCore, h10]
        have := (digitChar_spec n h10).1
        simp [digitsVal, List.foldl]
        omega
    · have hdiv : n / 10 < fuel := by omega
      obtain ⟨⟨d, l, hd, hcons⟩, hall, hval⟩ := ih (n / 10) hdiv
      have hrw : natToDigitsCore (fuel + 1) n
          = natToDigitsCore fuel (n / 10) ++ [digitChar (n % 10)] := by
        simp [natToDigitsCore, h10]
      refine ⟨⟨d, l ++ [digitChar (n % 10)], hd, by simp [hrw, hcons]⟩, ?_, ?_⟩
      · intro c hc
        rw [hrw] at hc
        rcases List.mem_append.mp hc with hc | hc
        · exact hall c hc
        · simp at hc
          exact ⟨n % 10, by omega, hc⟩
      · rw [hrw, digitsVal_append, hval]
        have := (digitChar_spec (n % 10) (by omega)).1
        omega

theorem takeWhile_all {p : Char → Bool} : ∀ l : List Char, (∀ c ∈ l, p c = true) →
    l.takeWhile p = l := by
  intro l h
  induction l with
  | nil => rfl
  | cons c cs ih =>
    rw [List.takeWhile_cons, h c (by simp)]
    simp [ih (fun x hx => h x (by simp [hx]))]

theorem jsParseDigits_digits (n : Nat) (fuel : Nat) (h : n < fuel) :
    jsParseDigits (natToDigitsCore fuel n) = some n := by
  obtain ⟨⟨d, l, hd, hcons⟩, hall, hval⟩ := natToDigitsCore_spec fuel n h
  have htw : (natToDigitsCore fuel n).takeWhile (fun c => c.isDigit)
      = natToDigitsCore fuel n := by
    apply takeWhile_all
    intro c hc
    obtain ⟨d2, hd2, rfl⟩ := hall c hc
    exact (digitChar_spec d2 hd2).2.1
  have hne : natToDigitsCore fuel n ≠ [] := by simp [hcons]
  simp [jsParseDigits, htw, hne, hval]

theorem jsParseInt_natToString (n : Nat) : jsParseInt (natToString n) = some (n : Int) := by
  obtain ⟨⟨d, l, hd, hcons⟩, hall, hval⟩ := natToDigitsCore_spec (n + 1) n (by omega)
  have hlist : (natToString n).toList = digitChar d :: l := by
    simp [natToString, String.toList, hcons]
  have hnws : (digitChar d).isWhitespace = false := (digitChar_spec d hd).2.2.1
  have hnm : digitChar d ≠ '-' := (digitChar_spec d hd).2.2.2.1
  have hnp : digitChar d ≠ '+' := (digitChar_spec d hd).2.2.2.2
  rw [jsParseInt, hlist]
  rw [List.dropWhile_cons]
  simp only [hnws, Bool.false_eq_true, if_false]
  simp only [hnm, hnp, if_false]
  rw [← hcons, jsParseDigits_digits n (n + 1) (by omega)]
  rfl

theorem jsParseInt_intToString (i : Int) : jsParseInt (intToString i) = some i := by
  cases i with
  | ofNat n => exact jsParseInt_natToString n
  | negSucc m =>
    have h := jsParseDigits_digits (m + 1) (m + 2) (by omega)
    have hlist : (intToString (Int.negSucc m)).toList
        = '-' :: natToDigitsCore (m + 2) (m + 1) := by
      simp [intToString, natToString, String.toList]
    have hws : ('-' : Char).isWhitespace = false := by decide
    rw [jsParseInt, hlist, List.dropWhile_cons, hws]
    simp only [Bool.false_eq_true, if_false]
    simp [h, Int.negSucc_eq]

theorem intToString_injective {a b : Int} (h : intToString a = intToString b) : a = b := by
  have ha := jsParseInt_intToString a
  rw [h, jsParseInt_intToString b] at ha
  exact (Option.some_injective _ ha).symm

/-! ## Close-by-id script lemmas -/

theorem removeFirst_eq_none {tid : Int} : ∀ ts : List BTab,
    (∀ t ∈ ts, t.tabId ≠ tid) → removeFirst (intToString tid) ts = none := by
  intro ts h
  induction ts with
  | nil => rfl
  | cons t ts ih =>
    have hne : intToString t.tabId ≠ intToString tid := by
      intro he
      exact h t (by simp) (intToString_injective he)
    rw [removeFirst, if_neg hne, ih (fun x hx => h x (by simp [hx]))]
    rfl

theorem closeByIdScript_not_found {tid : Int} : ∀ ws : List BWindow,
    (∀ w ∈ ws, ∀ t ∈ w.tabs, t.tabId ≠ tid) →
    closeByIdScript (intToString tid) ws
      = Except.error ("Tab with ID " ++ intToString tid ++ " not found") := by
  intro ws h
  induction ws with
  | nil => rfl
  | cons w ws ih =>
    rw [closeByIdScript]
    rw [removeFirst_eq_none w.tabs (h w (by simp))]
    rw [ih (fun x hx => h x (by simp [hx]))]
    rfl

/-! ## Activate-by-id script lemmas -/

theorem findTabIdx_none {target : String} : ∀ (ts : List BTab) (i : Nat),
    findTabIdx target i ts = none → ∀ t ∈ ts, intToString t.tabId ≠ target := by
  intro ts
  induction ts with
  | nil => intro i _ t ht; simp at ht
  | cons t0 ts ih =>
    intro i h t ht
    rw [findTabIdx] at h
    by_cases he : intToString t0.tabId = target
    · simp [he] at h
    · rw [if_neg he] at h
      rcases List.mem_cons.mp ht with ht2 | ht2
      · exact ht2 ▸ he
      · exact ih (i + 1) h t ht2

theorem findTabIdx_spec {target : String} : ∀ (ts : List BTab) (i j : Nat),
    findTabIdx target i ts = some j →
    i ≤ j ∧ j - i < ts.length ∧ ∃ t, ts.get? (j - i) = some t ∧ intToString t.tabId = target := by
  intro ts
  induction ts with
  | nil => intro i j h; simp [findTabIdx] at h
  | cons t0 ts ih =>
    intro i j h
    rw [findTabIdx] at h
    by_cases he : intToString t0.tabId = target
    · rw [if_pos he] at h
      obtain rfl : i = j := by simpa using h
      refine ⟨le_refl _, by simp, t0, by simp, he⟩
    · rw [if_neg he] at h
      obtain ⟨h1, h2, t, hget, htgt⟩ := ih (i + 1) j h
      refine ⟨by omega, by simp; omega, t, ?_, htgt⟩
      have : j - i = (j - (i + 1)) + 1 := by omega
      rw [this]
      simpa using hget

theorem findTabIdx_isSome {target : String} : ∀ (ts : List BTab) (i : Nat),
    (∃ t ∈ ts, intToString t.tabId = target) → (findTabIdx target i ts).isSome := by
  intro ts
  induction ts with
  | nil => intro i h; simp at h
  | cons t0 ts ih =>
    rintro i ⟨t, ht, htgt⟩
    rw [findTabIdx]
    by_cases he : intToString t0.tabId = target
    · simp [he]
    · rw [if_neg he]
      rcases List.mem_cons.mp ht with ht2 | ht2
      · exact absurd (ht2 ▸ htgt) he
      · exact ih (i + 1) ⟨t, ht2, htgt⟩

theorem activateSearch_found {tid : Int} : ∀ ws : List BWindow,
    (∃ w ∈ ws, ∃ t ∈ w.tabs, t.tabId = tid) →
    ∃ w i rest, activateSearch (intToString tid) ws = some ({ w with activeTabIndex := i }, rest)
      ∧ w ∈ ws ∧ findTabIdx (intToString tid) 1 w.tabs = some i := by
  intro ws
  induction ws with
  | nil => intro h; simp at h
  | cons w0 ws ih =>
    rintro ⟨w, hw, t, ht, htid⟩
    rw [activateSearch]
    cases hf : findTabIdx (intToString tid) 1 w0.tabs with
    | some i => exact ⟨w0, i, ws, rfl, by simp, hf⟩
    | none =>
      have hmem : w ∈ ws := by
        rcases List.mem_cons.mp hw with hw2 | hw2
        · exfalso
          exact findTabIdx_none w0.tabs 1 hf t (hw2 ▸ ht) (by rw [htid])
        · exact hw2
      obtain ⟨w1, i, rest, hsearch, hmem1, hfind⟩ := ih ⟨w, hmem, t, ht, htid⟩
      refine ⟨w1, i, w0 :: rest, ?_, by simp [hmem1], hfind⟩
      simp [hsearch]

theorem activeTabsFrom_gt : ∀ (ts : List BTab) (i act : Nat), act < i →
    activeTabsFrom act i ts = [] := by
  intro ts
  induction ts with
  | nil => intro i act _; rfl
  | cons t ts ih =>
    intro i act h
    rw [activeTabsFrom, if_neg (by omega)]
    simpa using ih (i + 1) act (by omega)

theorem activeTabsFrom_at : ∀ (ts : List BTab) (i j : Nat) (t : BTab),
    ts.get? j = some t → activeTabsFrom (i + j) i ts = [t] := by
  intro ts
  induction ts with
  | nil => intro i j t h; simp at h
  | cons t0 ts ih =>
    intro i j t h
    cases j with
    | zero =>
      obtain rfl : t0 = t := by simpa using h
      rw [activeTabsFrom, if_pos (by omega)]
      rw [activeTabsFrom_gt ts (i + 1) (i + 0) (by omega)]
      rfl
    | succ jj =>
      rw [activeTabsFrom, if_neg (by omega)]
      have : i + (jj + 1) = (i + 1) + jj := by omega
      rw [this]
      simpa using ih (i + 1) jj t (by simpa using h)


/-- Claim C1 (amended): for every browser state and every tabId carried by no
open tab, `closeChromeTabById` returns a failure whose message reports the
tab ID as not found and leaves the browser state unchanged; however the id is
resolved inside the close script itself, so exactly one bridge mutation
invocation is issued rather than none. -/
theorem closeById_unknown_id (st : BrowserState) (tid : Int)
    (h : ∀ w ∈ st.windows, ∀ t ∈ w.tabs, t.tabId ≠ tid) :
    closeChromeTabById (JsValue.num tid) st
      = (Except.error ("Failed to close Chrome tab with ID " ++ intToString tid ++ ": "
          ++ ("Tab with ID " ++ intToString tid ++ " not found")), st, 1) := by
  have hs := closeByIdScript_not_found st.windows h
  simp [closeChromeTabById, jsToString, hs]

/-- Witness for C1: `CloseById(999)` against the scenario state (tabs 555 and
556) fails with the not-found message, changes nothing, and issues one bridge
invocation. -/
theorem closeById_unknown_id_witness :
    closeChromeTabById (JsValue.num 999) scenarioState
      = (Except.error ("Failed to close Chrome tab with ID " ++ intToString 999 ++ ": "
          ++ ("Tab with ID " ++ intToString 999 ++ " not found")), scenarioState, 1) :=
  closeById_unknown_id scenarioState 999 (by decide)

/-- Counterexample to C1 as stated: `CloseById(999)` against the scenario
snapshot issues one bridge mutation invocation, not zero — the id is not
resolved against a locally parsed snapshot before the mutation script runs. -/
theorem closeById_unknown_id_calls_bridge :
    (closeChromeTabById (JsValue.num 999) scenarioState).2.2 = 1 := by decide

/-- Claim C8: after a successful `ActivateById(tid)` the front window is the
tab's window, a fresh snapshot of it flags exactly one tab active, that tab
carries id `tid`, and the whole activation (set active tab plus bring the
window to the front) was performed by a single bridge invocation. -/
theorem activateById_single_active (st : BrowserState) (tid : Int)
    (h : ∃ w ∈ st.windows, ∃ t ∈ w.tabs, t.tabId = tid) :
    ∃ w1 rest t1,
      activateChromeTabById (JsValue.num tid) st = (Except.ok (), ⟨w1 :: rest⟩, 1)
        ∧ activeTabs w1 = [t1] ∧ t1.tabId = tid ∧ t1 ∈ w1.tabs := by
  obtain ⟨w, i, rest, hsearch, hmem, hfind⟩ := activateSearch_found st.windows h
  obtain ⟨h1, h2, t1, hget, htgt⟩ := findTabIdx_spec w.tabs 1 i hfind
  refine ⟨{ w with activeTabIndex := i }, rest, t1, ?_, ?_, intToString_injective htgt, ?_⟩
  · simp [activateChromeTabById, activateByIdScript, jsToString, hsearch]
  · show activeTabsFrom i 1 w.tabs = [t1]
    have hi : i = 1 + (i - 1) := by omega
    rw [hi]
    exact activeTabsFrom_at w.tabs 1 (i - 1) t1 hget
  · exact List.get?_mem hget

/-- Witness for C8: activating tab 556 of the scenario state succeeds in one
bridge call and leaves exactly tab 556 active in its window. -/
theorem activateById_single_active_witness :
    ∃ w1 rest t1,
      activateChromeTabById (JsValue.num 556) scenarioState = (Except.ok (), ⟨w1 :: rest⟩, 1)
        ∧ activeTabs w1 = [t1] ∧ t1.tabId = 556 ∧ t1 ∈ w1.tabs :=
  activateById_single_active scenarioState 556 (by decide)


/-! ## Directory/Resolver lemmas -/

theorem find_first_of_nodup {α β : Type} [DecidableEq β] (f : α → β) :
    ∀ (l : List α) (a : α), (l.map f).Nodup → a ∈ l →
      l.find? (fun x => f x = f a) = some a := by
  intro l
  induction l with
  | nil => intro a _ ha; simp at ha
  | cons b l ih =>
    intro a hnd ha
    rw [List.find?]
    by_cases hb : f b = f a
    · have hab : a = b := by
        rcases List.mem_cons.mp ha with h | h
        · exact h
        · exfalso
          have hmem : f a ∈ l.map f := List.mem_map_of_mem f h
          have : f b ∉ l.map f := (List.nodup_cons.mp (by simpa using hnd)).1
          exact this (hb ▸ hmem)
      simp [hb, hab]
    · rw [decide_eq_false hb]
      have hal : a ∈ l := by
        rcases List.mem_cons.mp ha with h | h
        · exact absurd (congrArg f h.symm) hb
        · exact h
      exact ih a (by simpa using (List.nodup_cons.mp (by simpa using hnd)).2) hal

theorem lookupById_found : ∀ (S : List ChromeWindow) (tid : Option Int),
    (∃ w ∈ S, ∃ t ∈ w.tabs, t.id = tid) →
    ∃ w1 t1, lookupById S tid = some (w1, t1) ∧ w1 ∈ S ∧ t1 ∈ w1.tabs ∧ t1.id = tid := by
  intro S
  induction S with
  | nil => rintro tid ⟨w, hw, _⟩; simp at hw
  | cons w0 S ih =>
    rintro tid ⟨w, hw, t, ht, htid⟩
    rw [lookupById]
    cases hf : w0.tabs.find? (fun t => t.id = tid) with
    | some t1 =>
      refine ⟨w0, t1, rfl, by simp, List.mem_of_find?_eq_some hf, ?_⟩
      have := List.find?_some hf
      simpa using this
    | none =>
      have hmem : w ∈ S := by
        rcases List.mem_cons.mp hw with hw2 | hw2
        · exfalso
          have := List.find?_eq_none.mp hf t (hw2 ▸ ht)
          simp [htid] at this
        · exact hw2
      obtain ⟨w1, t1, hl, hw1, ht1, htid1⟩ := ih tid ⟨w, hmem, t, ht, htid⟩
      exact ⟨w1, t1, hl, by simp [hw1], ht1, htid1⟩

/-- Claim C5: round-trip addressing.  For every snapshot satisfying the
spec's Snapshot invariants (window positional indices pairwise distinct, tab
positional indices within each window pairwise distinct) and every tab in
it, resolving the identity target through the Resolver yields positional
coordinates whose Directory lookup returns a tab with the same id. -/
theorem resolve_roundtrip (S : List ChromeWindow) (w : ChromeWindow) (t : ChromeTab)
    (hw : w ∈ S) (ht : t ∈ w.tabs)
    (hwidx : (S.map ChromeWindow.windowIndex).Nodup)
    (htidx : ∀ w2 ∈ S, (w2.tabs.map ChromeTab.tabIndex).Nodup) :
    ∃ wi ti t1, resolve S t.id = some (wi, ti)
      ∧ lookupByPosition S wi ti = some t1 ∧ t1.id = t.id := by
  obtain ⟨w1, t1, hl, hw1, ht1, htid1⟩ := lookupById_found S t.id ⟨w, hw, t, ht, rfl⟩
  refine ⟨w1.windowIndex, t1.tabIndex, t1, ?_, ?_, htid1⟩
  · simp [resolve, hl]
  · rw [lookupByPosition]
    rw [find_first_of_nodup ChromeWindow.windowIndex S w1 hwidx hw1]
    exact find_first_of_nodup ChromeTab.tabIndex w1.tabs t1 (htidx w1 hw1) ht1

/-- Witness for C5: resolving tab 556 of the scenario snapshot and looking
the resulting coordinates up again lands on a tab with id 556. -/
theorem resolve_roundtrip_witness :
    ∃ wi ti t1, resolve scenarioSnapshot scenarioTab556.id = some (wi, ti)
      ∧ lookupByPosition scenarioSnapshot wi ti = some t1 ∧ t1.id = scenarioTab556.id :=
  resolve_roundtrip scenarioSnapshot scenarioWindow scenarioTab556
    (by decide) (by decide) (by decide) (by decide)


/-! ## Grouping-stage lemmas -/

theorem emitTabsFrom_windowId {wid : Int} {wIdx act : Nat} : ∀ (ts : List BTab) (i : Nat),
    ∀ r ∈ emitTabsFrom wid wIdx act i ts, r.windowId = some wid := by
  intro ts
  induction ts with
  | nil => intro i r hr; simp [emitTabsFrom] at hr
  | cons t ts ih =>
    intro i r hr
    rw [emitTabsFrom] at hr
    rcases List.mem_cons.mp hr with h | h
    · simp [h, mkRecord]
    · exact ih (i + 1) r h

theorem emitTabsFrom_length {wid : Int} {wIdx act : Nat} : ∀ (ts : List BTab) (i : Nat),
    (emitTabsFrom wid wIdx act i ts).length = ts.length := by
  intro ts
  induction ts with
  | nil => intro i; rfl
  | cons t ts ih => intro i; simp [emitTabsFrom, ih (i + 1)]

theorem emitTabsFrom_map_tabIndex {wid : Int} {wIdx act : Nat} : ∀ (ts : List BTab) (i : Nat),
    (emitTabsFrom wid wIdx act i ts).map TabData.tabIndex
      = (List.range' i ts.length).map (fun n => some (n : Int)) := by
  intro ts
  induction ts with
  | nil => intro i; rfl
  | cons t ts ih =>
    intro i
    rw [emitTabsFrom, List.map_cons, ih (i + 1)]
    simp [List.range'_succ, mkRecord]

theorem emitTabsFrom_map_tabId {wid : Int} {wIdx act : Nat} : ∀ (ts : List BTab) (i : Nat),
    (emitTabsFrom wid wIdx act i ts).map TabData.tabId
      = ts.map (fun t => some t.tabId) := by
  intro ts
  induction ts with
  | nil => intro i; rfl
  | cons t ts ih =>
    intro i
    rw [emitTabsFrom, List.map_cons, ih (i + 1), List.map_cons]
    simp [mkRecord]

theorem insertTab_no_match : ∀ (acc : List ChromeWindow) (t : TabData),
    (∀ a ∈ acc, a.windowId ≠ t.windowId) → insertTab acc t = acc ++ [newWindowOf t] := by
  intro acc
  induction acc with
  | nil => intro t _; rfl
  | cons a acc ih =>
    intro t h
    rw [insertTab, if_neg (h a (by simp))]
    simp [ih t (fun x hx => h x (by simp [hx]))]

theorem insertTab_append : ∀ (acc l : List ChromeWindow) (t : TabData),
    (∀ a ∈ acc, a.windowId ≠ t.windowId) →
    insertTab (acc ++ l) t = acc ++ insertTab l t := by
  intro acc
  induction acc with
  | nil => intro l t _; rfl
  | cons a acc ih =>
    intro l t h
    rw [List.cons_append, insertTab, if_neg (h a (by simp))]
    simp [ih l t (fun x hx => h x (by simp [hx]))]

theorem foldl_insert_same : ∀ (rs : List TabData) (acc : List ChromeWindow) (w : ChromeWindow),
    (∀ r ∈ rs, r.windowId = w.windowId) →
    (∀ a ∈ acc, a.windowId ≠ w.windowId) →
    List.foldl insertTab (acc ++ [w]) rs
      = acc ++ [{ w with tabs := w.tabs ++ rs.map mkChromeTab }] := by
  intro rs
  induction rs with
  | nil => intro acc w _ _; simp
  | cons r rs ih =>
    intro acc w hr hacc
    rw [List.foldl_cons]
    have hstep : insertTab (acc ++ [w]) r = acc ++ [{ w with tabs := w.tabs ++ [mkChromeTab r] }] := by
      rw [insertTab_append acc [w] r (fun a ha => (hr r (by simp)) ▸ hacc a ha)]
      rw [insertTab, if_pos (hr r (by simp)).symm]
    rw [hstep]
    rw [ih acc { w with tabs := w.tabs ++ [mkChromeTab r] }
      (fun x hx => hr x (by simp [hx])) hacc]
    simp

theorem foldl_insert_emitFrom : ∀ (ws : List BWindow) (k : Nat) (acc : List ChromeWindow),
    (∀ w ∈ ws, w.tabs ≠ []) →
    (ws.map BWindow.winId).Nodup →
    (∀ a ∈ acc, ∀ w ∈ ws, a.windowId ≠ some w.winId) →
    List.foldl insertTab acc (emitFrom k ws) = acc ++ expectedFrom k ws := by
  intro ws
  induction ws with
  | nil => intro k acc _ _ _; simp [emitFrom, expectedFrom]
  | cons w ws ih =>
    intro k acc hne hnd hacc
    obtain ⟨t, ts, hts⟩ := List.exists_cons_of_ne_nil (hne w (by simp))
    rw [emitFrom, List.foldl_append]
    have hrec : emitTabsFrom w.winId k w.activeTabIndex 1 w.tabs
        = mkRecord w.winId k w.activeTabIndex 1 t
            :: emitTabsFrom w.winId k w.activeTabIndex 2 ts := by
      rw [hts, emitTabsFrom]
    have hfirst : List.foldl insertTab acc (emitTabsFrom w.winId k w.activeTabIndex 1 w.tabs)
        = acc ++ [expectedWindow k w] := by
      rw [hrec, List.foldl_cons]
      have hacc0 : ∀ a ∈ acc, a.windowId ≠ (mkRecord w.winId k w.activeTabIndex 1 t).windowId := by
        intro a ha
        exact hacc a ha w (by simp)
      rw [insertTab_no_match acc _ hacc0]
      rw [foldl_insert_same _ acc (newWindowOf (mkRecord w.winId k w.activeTabIndex 1 t))
        (fun r hr => emitTabsFrom_windowId ts 2 r hr)
        (fun a ha => hacc a ha w (by simp))]
      congr 1
      simp [newWindowOf, expectedWindow, mkRecord, hrec]
    rw [hfirst]
    rw [ih (k + 1) (acc ++ [expectedWindow k w])
      (fun x hx => hne x (by simp [hx]))
      (by simpa using (List.nodup_cons.mp (by simpa using hnd)).2)
      ?_]
    · simp [expectedFrom]
    · intro a ha w2 hw2
      rcases List.mem_append.mp ha with ha2 | ha2
      · exact hacc a ha2 w2 (by simp [hw2])
      · have : a = expectedWindow k w := by simpa using ha2
        rw [this]
        simp only [expectedWindow]
        intro he
        have : w.winId = w2.winId := by simpa using he
        have hnotin : w.winId ∉ ws.map BWindow.winId :=
          (List.nodup_cons.mp (by simpa using hnd)).1
        exact hnotin (this ▸ List.mem_map_of_mem BWindow.winId hw2)


theorem expectedFrom_length : ∀ (ws : List BWindow) (k : Nat),
    (expectedFrom k ws).length = ws.length := by
  intro ws
  induction ws with
  | nil => intro k; rfl
  | cons w ws ih => intro k; simp [expectedFrom, ih (k + 1)]

theorem expectedFrom_map_windowIndex : ∀ (ws : List BWindow) (k : Nat),
    (expectedFrom k ws).map ChromeWindow.windowIndex
      = (List.range' k ws.length).map (fun n => some (n : Int)) := by
  intro ws
  induction ws with
  | nil => intro k; rfl
  | cons w ws ih =>
    intro k
    rw [expectedFrom, List.map_cons, ih (k + 1)]
    simp [List.range'_succ, expectedWindow]

theorem expectedFrom_mem : ∀ (ws : List BWindow) (k : Nat) (w1 : ChromeWindow),
    w1 ∈ expectedFrom k ws → ∃ j w0, w0 ∈ ws ∧ w1 = expectedWindow j w0 := by
  intro ws
  induction ws with
  | nil => intro k w1 h; simp [expectedFrom] at h
  | cons w ws ih =>
    intro k w1 h
    rw [expectedFrom] at h
    rcases List.mem_cons.mp h with h | h
    · exact ⟨k, w, by simp, h⟩
    · obtain ⟨j, w0, hmem, heq⟩ := ih (k + 1) w1 h
      exact ⟨j, w0, by simp [hmem], heq⟩

theorem expectedFrom_flatten_ids : ∀ (ws : List BWindow) (k : Nat),
    ((expectedFrom k ws).map ChromeWindow.tabs).flatten.map ChromeTab.id
      = ((ws.map BWindow.tabs).flatten).map (fun t => some t.tabId) := by
  intro ws
  induction ws with
  | nil => intro k; rfl
  | cons w ws ih =>
    intro k
    rw [expectedFrom, List.map_cons, List.flatten, List.map_append, ih (k + 1)]
    rw [List.map_cons, List.flatten, List.map_append]
    congr 1
    show ((emitTabsFrom w.winId k w.activeTabIndex 1 w.tabs).map mkChromeTab).map ChromeTab.id
      = w.tabs.map (fun t => some t.tabId)
    rw [List.map_map]
    have : ChromeTab.id ∘ mkChromeTab = TabData.tabId := by
      funext r
      rfl
    rw [this, emitTabsFrom_map_tabId]

/-- Claim C6 (amended): the grouping stage does not itself enforce the
snapshot invariants, but establishes them for the records the enumerate
script emits from any browser whose window ids are pairwise distinct, whose
windows each hold at least one tab, and whose tab ids are pairwise
distinct: tab ids in the snapshot are then pairwise distinct, window
positional indices are exactly the dense sequence 1..N, and each window's
tab positional indices are exactly the dense sequence 1..N. -/
theorem grouping_invariants (bs : BrowserState)
    (h1 : (bs.windows.map BWindow.winId).Nodup)
    (h2 : ∀ w ∈ bs.windows, w.tabs ≠ [])
    (h3 : (((bs.windows.map BWindow.tabs).flatten).map BTab.tabId).Nodup) :
    (((groupTabs (emitRecords bs)).map ChromeWindow.tabs).flatten.map ChromeTab.id).Nodup
      ∧ (groupTabs (emitRecords bs)).map ChromeWindow.windowIndex
          = (List.range' 1 (groupTabs (emitRecords bs)).length).map (fun n => some (n : Int))
      ∧ ∀ w ∈ groupTabs (emitRecords bs),
          w.tabs.map ChromeTab.tabIndex
            = (List.range' 1 w.tabs.length).map (fun n => some (n : Int)) := by
  have hmain : groupTabs (emitRecords bs) = expectedFrom 1 bs.windows := by
    rw [groupTabs, emitRecords]
    rw [foldl_insert_emitFrom bs.windows 1 [] h2 h1 (by simp)]
    rfl
  refine ⟨?_, ?_, ?_⟩
  · rw [hmain, expectedFrom_flatten_ids]
    have hco : (fun (t : BTab) => some t.tabId) = (Option.some ∘ BTab.tabId) := rfl
    rw [hco, ← List.map_map]
    exact h3.map (Option.some_injective Int)
  · rw [hmain, expectedFrom_map_windowIndex, expectedFrom_length]
  · intro w hw
    rw [hmain] at hw
    obtain ⟨j, w0, hmem, rfl⟩ := expectedFrom_mem bs.windows 1 w hw
    show ((emitTabsFrom w0.winId j w0.activeTabIndex 1 w0.tabs).map mkChromeTab).map
        ChromeTab.tabIndex = _
    rw [List.map_map]
    have hcomp : ChromeTab.tabIndex ∘ mkChromeTab = TabData.tabIndex := by
      funext r
      rfl
    rw [hcomp, emitTabsFrom_map_tabIndex]
    congr 1
    simp [expectedWindow, emitTabsFrom_length]

/-- Witness for C6: a two-window browser (ids 10 and 11, tabs 555/556 and
600) groups into a snapshot with distinct tab ids and dense positional
indices. -/
theorem grouping_invariants_witness :
    (((groupTabs (emitRecords ⟨[⟨10, 1, [⟨555, "Home", "u1"⟩, ⟨556, "Docs", "u2"⟩]⟩,
          ⟨11, 1, [⟨600, "A", "u3"⟩]⟩]⟩)).map ChromeWindow.tabs).flatten.map ChromeTab.id).Nodup
      ∧ (groupTabs (emitRecords ⟨[⟨10, 1, [⟨555, "Home", "u1"⟩, ⟨556, "Docs", "u2"⟩]⟩,
            ⟨11, 1, [⟨600, "A", "u3"⟩]⟩]⟩)).map ChromeWindow.windowIndex
          = (List.range' 1 (groupTabs (emitRecords ⟨[⟨10, 1, [⟨555, "Home", "u1"⟩,
              ⟨556, "Docs", "u2"⟩]⟩, ⟨11, 1, [⟨600, "A", "u3"⟩]⟩]⟩)).length).map
              (fun n => some (n : Int))
      ∧ ∀ w ∈ groupTabs (emitRecords ⟨[⟨10, 1, [⟨555, "Home", "u1"⟩, ⟨556, "Docs", "u2"⟩]⟩,
            ⟨11, 1, [⟨600, "A", "u3"⟩]⟩]⟩),
          w.tabs.map ChromeTab.tabIndex
            = (List.range' 1 w.tabs.length).map (fun n => some (n : Int)) :=
  grouping_invariants ⟨[⟨10, 1, [⟨555, "Home", "u1"⟩, ⟨556, "Docs", "u2"⟩]⟩,
    ⟨11, 1, [⟨600, "A", "u3"⟩]⟩]⟩ (by decide) (by decide) (by decide)

/-- Counterexample to C6 as stated: the parser applied to the arbitrary
bridge output below produces a snapshot whose window positional indices are
1 and 5 (not dense) and whose two tabs both carry id 7 (not unique). -/
theorem grouping_arbitrary_output_violates :
    (getChromeTabsWithIds "1|||1|||7|||1|||true|||a|||b\n2|||5|||7|||1|||true|||c|||d").map
        ChromeWindow.windowIndex = [some 1, some 5]
      ∧ (((getChromeTabsWithIds
            "1|||1|||7|||1|||true|||a|||b\n2|||5|||7|||1|||true|||c|||d").map
            ChromeWindow.tabs).flatten.map ChromeTab.id) = [some 7, some 7] := by decide


/-! ## Parser totality lemmas -/

theorem getD_take {l : List String} {n i : Nat} (h : i < n) :
    (l.take n).getD i "" = l.getD i "" := by
  simp [List.getD_eq_getElem?_getD, List.getElem?_take, h]

/-- Claim C2 (amended): the parser never fails.  A non-blank line that splits
into fewer than 7 fields still contributes a Tab record to the parse result
(it is neither dropped nor a failure); its missing url and title fields
default to the empty string and its missing numeric fields parse to `NaN`
(modelled `none`). -/
theorem parse_short_line (raw line : String)
    (hmem : line ∈ strSplit (jsTrim raw) "\n") (hlen : line.length > 0)
    (hshort : (strSplit line "|||").length < 7) :
    parseLine line ∈ parseTabs raw ∧ (parseLine line).url = ""
      ∧ ((strSplit line "|||").length ≤ 5 → (parseLine line).title = "")
      ∧ ((strSplit line "|||").length ≤ 3 → (parseLine line).tabIndex = none) := by
  refine ⟨?_, ?_, ?_, ?_⟩
  · apply List.mem_map_of_mem parseLine
    exact List.mem_filter.mpr ⟨hmem, by simpa using hlen⟩
  · show (strSplit line "|||").getD 6 "" = ""
    exact List.getD_eq_default _ "" (by omega)
  · intro h5
    show (strSplit line "|||").getD 5 "" = ""
    exact List.getD_eq_default _ "" (by omega)
  · intro h3
    show jsParseInt ((strSplit line "|||").getD 3 "") = none
    rw [List.getD_eq_default _ "" (by omega)]
    rfl

/-- Witness for C2: the one-field line `abc` is itself kept as a defaulted
record. -/
theorem parse_short_line_witness :
    parseLine "abc" ∈ parseTabs "abc" ∧ (parseLine "abc").url = ""
      ∧ ((strSplit "abc" "|||").length ≤ 5 → (parseLine "abc").title = "")
      ∧ ((strSplit "abc" "|||").length ≤ 3 → (parseLine "abc").tabIndex = none) :=
  parse_short_line "abc" "abc" (by decide) (by decide) (by decide)

/-- Counterexample to C2 as stated: parsing the non-blank one-field line
`abc` yields a defaulted Tab record (all numeric fields `NaN`, empty
strings), not a `ParseFailure` — the parse result is a normal record list. -/
theorem parse_short_line_no_failure :
    parseTabs "abc"
      = [TabData.mk none none none none false "" ""] := by decide

/-- Claim C3: out-of-range positional close.  `close_tab` with window index
99 against a one-window browser returns a success envelope (the script's own
error handler catches the addressing failure and returns it on stdout, which
the TypeScript layer discards), leaving the state unchanged after one bridge
call.  This contradicts the claim that a Failure wrapping the bridge error is
returned, and the success message misreports a close that never happened. -/
theorem closeByPosition_out_of_range_success :
    handleCallTool "close_tab"
        (some [("windowIndex", JsValue.num 99), ("tabIndex", JsValue.num 1)]) smallState
      = (successEnvelope ("⚠️ LEGACY: Successfully closed tab at window 99, tab 1. "
          ++ "Consider using close_tab_by_id for better reliability."), smallState, 1) := by
  decide

/-! ## Bridge-call counting lemmas -/

theorem closeChromeTabById_calls (v : JsValue) (st : BrowserState) :
    (closeChromeTabById v st).2.2 = 1 := by
  rw [closeChromeTabById]
  cases closeByIdScript (jsToString v) st.windows <;> rfl

theorem activateChromeTabById_calls (v : JsValue) (st : BrowserState) :
    (activateChromeTabById v st).2.2 = 1 := by
  rw [activateChromeTabById]
  cases activateByIdScript (jsToString v) st.windows <;> rfl

theorem closeChromeTabByIndex_calls (wv tv : JsValue) (st : BrowserState) :
    (closeChromeTabByIndex wv tv st).2.2 = 1 := by
  cases wv <;> cases tv <;> rfl

/-- Claim C4 (amended): the handler performs no runtime validation of tool
arguments — the zod schemas only document the tools in the tools/list
response.  Whatever value is supplied for `tabId` (or `windowIndex` and
`tabIndex`), including non-positive numbers, strings, booleans, null or a
missing property, the value is interpolated into the bridge script and
exactly one bridge invocation is issued; no `ValidationFailure` short-circuit
exists. -/
theorem callTool_no_validation (v wv tv : JsValue) (st : BrowserState) :
    (handleCallTool "close_tab_by_id" (some [("tabId", v)]) st).2.2 = 1
      ∧ (handleCallTool "activate_tab_by_id" (some [("tabId", v)]) st).2.2 = 1
      ∧ (handleCallTool "close_tab" (some [("windowIndex", wv), ("tabIndex", tv)]) st).2.2 = 1 := by
  refine ⟨?_, ?_, ?_⟩
  · have hc := closeChromeTabById_calls (getArg [("tabId", v)] "tabId") st
    rcases h : closeChromeTabById (getArg [("tabId", v)] "tabId") st with ⟨r, st2, c⟩
    rw [h] at hc
    simp only [Prod.snd] at hc
    cases r <;> simp [handleCallTool, h, hc]
  · have hc := activateChromeTabById_calls (getArg [("tabId", v)] "tabId") st
    rcases h : activateChromeTabById (getArg [("tabId", v)] "tabId") st with ⟨r, st2, c⟩
    rw [h] at hc
    simp only [Prod.snd] at hc
    cases r <;> simp [handleCallTool, h, hc]
  · have hc := closeChromeTabByIndex_calls (getArg [("windowIndex", wv), ("tabIndex", tv)] "windowIndex")
      (getArg [("windowIndex", wv), ("tabIndex", tv)] "tabIndex") st
    rcases h : closeChromeTabByIndex (getArg [("windowIndex", wv), ("tabIndex", tv)] "windowIndex")
      (getArg [("windowIndex", wv), ("tabIndex", tv)] "tabIndex") st with ⟨r, st2, c⟩
    rw [h] at hc
    simp only [Prod.snd] at hc
    cases r <;> simp [handleCallTool, h, hc]

/-- Counterexample to C4 as stated: calling `close_tab_by_id` with the
non-positive tabId 0 issues a bridge call (count 1), instead of returning a
`ValidationFailure` with no bridge call issued. -/
theorem callTool_nonpositive_id_calls_bridge :
    (handleCallTool "close_tab_by_id" (some [("tabId", JsValue.num 0)]) smallState).2.2 = 1 := by
  decide

/-- Claim C7: parsing the spec's scenario bridge output yields exactly one
window with windowId 10 at positional index 1, holding tab 555 (active,
title `Home`) then tab 556 (inactive, title `Docs`) with the given urls. -/
theorem parse_scenario : getChromeTabsWithIds scenarioRaw = [scenarioWindow] := by decide

/-- Claim C9: the tools/call handler returns a one-item response envelope for
every tool name (known or unknown), every arguments object and every browser
state, and an unknown tool name yields an `isError` envelope rather than an
escaped exception. -/
theorem callTool_total_envelope (name : String)
    (args : Option (List (String × JsValue))) (st : BrowserState) :
    (handleCallTool name args st).1.content.length = 1
      ∧ (name ∉ ["get_tabs", "close_tab_by_id", "activate_tab_by_id", "close_tab"] →
          (handleCallTool name args st).1.isError = true) := by
  unfold handleCallTool
  split_ifs with hg hc ha ht
  · exact ⟨rfl, fun hmem => absurd (by simp [hg]) hmem⟩
  · cases args with
    | none => exact ⟨rfl, fun hmem => absurd (by simp [hc]) hmem⟩
    | some a =>
      refine ⟨?_, fun hmem => absurd (by simp [hc]) hmem⟩
      split
      · simp_all
      · dsimp only
        split <;> simp [successEnvelope, errorEnvelope]
  · cases args with
    | none => exact ⟨rfl, fun hmem => absurd (by simp [ha]) hmem⟩
    | some a =>
      refine ⟨?_, fun hmem => absurd (by simp [ha]) hmem⟩
      split
      · simp_all
      · dsimp only
        split <;> simp [successEnvelope, errorEnvelope]
  · cases args with
    | none => exact ⟨rfl, fun hmem => absurd (by simp [ht]) hmem⟩
    | some a =>
      refine ⟨?_, fun hmem => absurd (by simp [ht]) hmem⟩
      split
      · simp_all
      · dsimp only
        split <;> simp [successEnvelope, errorEnvelope]
  · exact ⟨rfl, fun _ => rfl⟩

/-- Witness for C9: an unknown tool name gets a one-item `isError` envelope. -/
theorem callTool_total_envelope_witness :
    (handleCallTool "bogus_tool" none smallState).1.content.length = 1
      ∧ (handleCallTool "bogus_tool" none smallState).1.isError = true :=
  ⟨(callTool_total_envelope "bogus_tool" none smallState).1,
    (callTool_total_envelope "bogus_tool" none smallState).2 (by decide)⟩

/-- Claim C10: a line splitting into 7 or more fields is parsed from its
first seven fields only — the record equals the parse of the truncated field
list, with the sixth field as title and the seventh as url; every later
fragment is discarded and no failure is reported. -/
theorem parseFields_extra_discarded (fs : List String) (hlen : 7 ≤ fs.length) :
    parseFields fs = parseFields (fs.take 7)
      ∧ (parseFields fs).title = fs.getD 5 "" ∧ (parseFields fs).url = fs.getD 6 "" := by
  refine ⟨?_, rfl, rfl⟩
  simp [parseFields, @getD_take fs 7 0 (by norm_num), @getD_take fs 7 1 (by norm_num),
    @getD_take fs 7 2 (by norm_num), @getD_take fs 7 3 (by norm_num),
    @getD_take fs 7 4 (by norm_num), @getD_take fs 7 5 (by norm_num),
    @getD_take fs 7 6 (by norm_num)]

/-- Witness for C10: a title containing the delimiter (`My|||Title`) shifts
`Title` into the url position and drops the real url, with no failure. -/
theorem parseFields_extra_discarded_witness :
    (7 ≤ eightFields.length ∧ parseFields eightFields = parseFields (eightFields.take 7))
      ∧ (parseLine "1|||1|||5|||1|||true|||My|||Title|||http://x").title = "My"
      ∧ (parseLine "1|||1|||5|||1|||true|||My|||Title|||http://x").url = "Title" :=
  ⟨⟨by decide, (parseFields_extra_discarded eightFields (by decide)).1⟩, by decide, by decide⟩

end BrowserTabs
